import Mathlib

/-!
Verification development for the go-message-dispatcher repository.

The definitions below are a shallow embedding of the Go source:

* `Status`, `Message` and the entity operations `MarkAsSent`, `MarkAsFailed`,
  `IncrementRetry`, `CanRetry` embed
  `internal/core/domain/message/entity.go`.  Go methods mutate the receiver
  and return an error; here each operation returns the receiver state after
  the call together with an optional error (`Message × Option EntityError`).
  `time.Now()` is passed explicitly as an integer timestamp `now`.
* `PhoneNumberValidate` embeds `PhoneNumber.Validate` from
  `internal/core/domain/message/value_objects.go`, with Go byte lengths
  modelled by summing the UTF-8 size of each character.
* `sendSingleRequest`, `SendMessage` and `calculateBackoffDelay` embed
  `internal/adapters/secondary/services/webhook/client.go`.  The HTTP world
  is an environment `outcomes : Nat → HTTPOutcome` giving, for each attempt
  index, the transport result, status code and parse result of the response
  body.  Durations are integer nanoseconds; the Go code computes the backoff
  product in float64, which is exact for these magnitudes, so the embedding
  uses exact integer arithmetic.
* `processMessage`, `ProcessPendingMessages` embed the production variant of
  `internal/core/usecases/message_processing.go` (the one wired to the
  webhook and cache services).  Repository `Update` outcomes are part of the
  per-message environment; a cache write failure is ignored by the code and
  hence not modelled.
-/

namespace MessageDispatcher

/-- Status embeds the Go `Status` string enum with values
`PENDING`, `SENT`, `FAILED`. -/
inductive Status where
  | pending
  | sent
  | failed
deriving DecidableEq, Repr

/-- Message embeds the Go `Message` struct.  Timestamps are integers,
`ExternalID` and `SentAt` are nullable pointers modelled with `Option`. -/
structure Message where
  id : String
  phoneNumber : String
  content : String
  status : Status
  externalID : Option String
  retryCount : Int
  createdAt : Int
  updatedAt : Int
  sentAt : Option Int
deriving DecidableEq, Repr

/-- EntityError embeds the error helpers of
`internal/core/domain/message/errors.go`: `NewInvalidStatusTransitionError`,
`NewInvalidRetryError` and `NewMaxRetriesExceededError` (all built on
`errors.NewBusinessError`), kept structural here. -/
inductive EntityError where
  | invalidStatusTransition (fromStatus toStatus : Status)
  | invalidRetry (status : Status)
  | maxRetriesExceeded (currentRetries : Int)
deriving DecidableEq, Repr

/-- MaxRetryAttempts embeds the Go constant `MaxRetryAttempts = 3`. -/
def MaxRetryAttempts : Int := 3

/-- MarkAsSent embeds `Message.MarkAsSent`: legal only from `PENDING`;
on success sets status `SENT`, the external id, `SentAt` and `UpdatedAt`. -/
def MarkAsSent (m : Message) (externalID : String) (now : Int) :
    Message × Option EntityError :=
  if m.status ≠ Status.pending then
    (m, some (EntityError.invalidStatusTransition m.status Status.sent))
  else
    ({ m with
        status := Status.sent
        externalID := some externalID
        sentAt := some now
        updatedAt := now }, none)

/-- MarkAsFailed embeds `Message.MarkAsFailed`: illegal only from `SENT`;
on success sets status `FAILED` and refreshes `UpdatedAt`. -/
def MarkAsFailed (m : Message) (now : Int) : Message × Option EntityError :=
  if m.status = Status.sent then
    (m, some (EntityError.invalidStatusTransition m.status Status.failed))
  else
    ({ m with status := Status.failed, updatedAt := now }, none)

/-- IncrementRetry embeds `Message.IncrementRetry`: requires status
`PENDING` or `FAILED`, fails once `RetryCount` has reached
`MaxRetryAttempts`, otherwise adds one and refreshes `UpdatedAt`. -/
def IncrementRetry (m : Message) (now : Int) : Message × Option EntityError :=
  if m.status ≠ Status.pending ∧ m.status ≠ Status.failed then
    (m, some (EntityError.invalidRetry m.status))
  else if m.retryCount ≥ MaxRetryAttempts then
    (m, some (EntityError.maxRetriesExceeded m.retryCount))
  else
    ({ m with retryCount := m.retryCount + 1, updatedAt := now }, none)

/-- CanRetry embeds `Message.CanRetry`. -/
def CanRetry (m : Message) : Bool :=
  (m.status == Status.pending || m.status == Status.failed)
    && decide (m.retryCount < MaxRetryAttempts)

/-- EntityOp names one call to a mutating entity method, with its
arguments; used to talk about arbitrary sequences of entity operations. -/
inductive EntityOp where
  | markSent (externalID : String) (now : Int)
  | markFailed (now : Int)
  | incrementRetry (now : Int)

/-- applyOp gives the receiver state after one entity method call
(the Go methods mutate the receiver even when they return an error,
except that the error paths leave it untouched). -/
def applyOp (m : Message) : EntityOp → Message
  | EntityOp.markSent externalID now => (MarkAsSent m externalID now).1
  | EntityOp.markFailed now => (MarkAsFailed m now).1
  | EntityOp.incrementRetry now => (IncrementRetry m now).1

/-- applyOps folds a sequence of entity method calls over a message. -/
def applyOps (m : Message) (ops : List EntityOp) : Message :=
  ops.foldl applyOp m

/-- incrIter is the receiver state after n consecutive `IncrementRetry`
calls (the timestamp argument is irrelevant to the retry count). -/
def incrIter (m : Message) : Nat → Message
  | 0 => m
  | n + 1 => (IncrementRetry (incrIter m n) 0).1

/-- pendingMsgExample is a concrete freshly created message, as produced
by `NewMessage`: status `PENDING`, retry count 0, no external id. -/
def pendingMsgExample : Message :=
  { id := "msg-1"
    phoneNumber := "+15551234567"
    content := "Hello"
    status := Status.pending
    externalID := none
    retryCount := 0
    createdAt := 0
    updatedAt := 0
    sentAt := none }

/-- failedMsgExample is a concrete message in `FAILED` status. -/
def failedMsgExample : Message :=
  { pendingMsgExample with status := Status.failed, retryCount := 1 }

/-- sentMsgExample is a concrete message in `SENT` status. -/
def sentMsgExample : Message :=
  { pendingMsgExample with
      status := Status.sent
      externalID := some "ext-0"
      sentAt := some 1
      updatedAt := 1 }

/-- msgRetry2 is a concrete pending message with retry count 2, one
below the cap of 3. -/
def msgRetry2 : Message :=
  { pendingMsgExample with retryCount := 2 }

/-! Phone number validation, from
`internal/core/domain/message/value_objects.go`.  Strings are modelled as
lists of characters (Go ranges over runes); the Go `len` of a string counts
UTF-8 bytes, modelled by `utf8Len`. -/

/-- minPhoneLength embeds the Go constant `minPhoneLength = 10`. -/
def minPhoneLength : Nat := 10

/-- maxPhoneLength embeds the Go constant `maxPhoneLength = 15`. -/
def maxPhoneLength : Nat := 15

/-- goIsSpace models `unicode.IsSpace` for the Latin-1 range used by
`strings.TrimSpace` (tab, newline, vertical tab, form feed, carriage
return, space, next line, no-break space). -/
def goIsSpace (c : Char) : Bool :=
  c == ' ' || c == '\t' || c == '\n' || c == Char.ofNat 11 ||
    c == Char.ofNat 12 || c == '\r' || c == Char.ofNat 133 || c == Char.ofNat 160

/-- trimSpace models `strings.TrimSpace`: drop whitespace from both ends. -/
def trimSpace (l : List Char) : List Char :=
  ((l.dropWhile goIsSpace).reverse.dropWhile goIsSpace).reverse

/-- removeSeparators models the four `strings.ReplaceAll` calls of
`PhoneNumber.Validate` that delete spaces, hyphens and parentheses. -/
def removeSeparators (l : List Char) : List Char :=
  l.filter fun c => !(c == ' ' || c == '-' || c == '(' || c == ')')

/-- utf8Len is the Go `len` of the string: the sum of the UTF-8 byte
sizes of its characters. -/
def utf8Len (l : List Char) : Nat :=
  (l.map Char.utf8Size).sum

/-- matchDigitsPart matches the `[1-9]\d{1,14}` core of the Go phone
regex `^\+?[1-9]\d{1,14}$`: a nonzero digit followed by 1 to 14 digits. -/
def matchDigitsPart : List Char → Bool
  | [] => false
  | c :: rest =>
      decide ('1' ≤ c) && decide (c ≤ '9') && rest.all Char.isDigit &&
        decide (1 ≤ rest.length) && decide (rest.length ≤ 14)

/-- phoneRegexMatch models the anchored Go regex `^\+?[1-9]\d{1,14}$`:
an optional leading plus, then the digit core (`[1-9]` cannot match a
plus sign, so the optional quantifier is deterministic). -/
def phoneRegexMatch : List Char → Bool
  | [] => false
  | c :: rest => if c = '+' then matchDigitsPart rest else matchDigitsPart (c :: rest)

/-- PhoneNumberValidate embeds `PhoneNumber.Validate`: trim whitespace,
reject the empty string, delete separators, check the Go byte length is
between `minPhoneLength` and `maxPhoneLength`, then match the regex.
Returns `true` exactly when the Go method returns a nil error. -/
def PhoneNumberValidate (raw : List Char) : Bool :=
  let phone := trimSpace raw
  if phone = [] then false
  else
    let cleanPhone := removeSeparators phone
    if utf8Len cleanPhone < minPhoneLength ∨ utf8Len cleanPhone > maxPhoneLength then
      false
    else
      phoneRegexMatch cleanPhone

/-! Webhook client, from
`internal/adapters/secondary/services/webhook/client.go`.  Durations are
integer nanoseconds. -/

/-- WebhookResponse embeds the `WebhookResponse` JSON object
(success flag, external id, error message). -/
structure WebhookResponse where
  success : Bool
  externalID : String
  errorMessage : String
deriving DecidableEq, Repr

/-- WebhookError embeds the two domain error kinds the client produces:
validation errors (never retried) and business errors (retried). -/
inductive WebhookError where
  | validationError (msg : String)
  | businessError (msg : String)
deriving DecidableEq, Repr

/-- WebhookConfig embeds the webhook service configuration consumed by
the client: max retries and the backoff base and cap, in nanoseconds. -/
structure WebhookConfig where
  maxRetries : Int
  retryBackoffBase : Int
  retryBackoffMax : Int
deriving DecidableEq, Repr

/-- HTTPOutcome is the environment for one HTTP POST of
`sendSingleRequest`: either a transport error, or a response with its
status code and the result of parsing its body as a `WebhookResponse`
(`none` models a malformed body). -/
inductive HTTPOutcome where
  | transportError
  | response (statusCode : Nat) (parsed : Option WebhookResponse)
deriving DecidableEq, Repr

/-- sendSingleRequest embeds the single-request path of the client:
transport failures and non-2xx statuses are business errors, a 2xx
response with an unparseable body is a business error, and a 2xx
response whose body parses is returned as is, with no inspection of the
success flag. -/
def sendSingleRequest (outcome : HTTPOutcome) :
    Except WebhookError WebhookResponse :=
  match outcome with
  | HTTPOutcome.transportError =>
      Except.error (WebhookError.businessError "HTTP request failed")
  | HTTPOutcome.response statusCode parsed =>
      if statusCode < 200 ∨ statusCode ≥ 300 then
        Except.error (WebhookError.businessError "webhook returned non-2xx HTTP status")
      else
        match parsed with
        | none =>
            Except.error (WebhookError.businessError "failed to parse webhook response")
        | some resp => Except.ok resp

/-- shouldRetryError embeds `shouldRetryError`: validation errors are not
retried, everything else is. -/
def shouldRetryError : WebhookError → Bool
  | WebhookError.validationError _ => false
  | WebhookError.businessError _ => true

/-- nanosecond is one Go `time.Duration` unit; `time.Second` is 1e9. -/
def oneSecondNs : Int := 1000000000

/-- calculateBackoffDelay embeds `calculateBackoffDelay`: base falls back
to one second when non-positive, the cap falls back to five seconds when
non-positive, and the delay is the capped exponential
`base * 2 ^ (attempt - 1)`.  Go computes the product in float64, which is
exact for these magnitudes; the embedding uses integer arithmetic. -/
def calculateBackoffDelay (config : WebhookConfig) (attempt : Nat) : Int :=
  let baseDelay := if config.retryBackoffBase ≤ 0 then oneSecondNs
    else config.retryBackoffBase
  let exponentialDelay := baseDelay * 2 ^ (attempt - 1)
  let maxDelay := if config.retryBackoffMax ≤ 0 then 5 * oneSecondNs
    else config.retryBackoffMax
  if exponentialDelay > maxDelay then maxDelay else exponentialDelay

/-- sendAttempts embeds the retry loop of `SendMessage` from the given
attempt index on.  The fuel argument is `maxRetries + 1 - attempt`, the
number of loop iterations still permitted, so the recursion is
structural; the zero-fuel case is unreachable from `SendMessage`.  The
second component counts HTTP requests actually performed. -/
def sendAttempts (outcomes : Nat → HTTPOutcome) (maxRetries : Nat) :
    Nat → Nat → Except WebhookError WebhookResponse × Nat
  | _, 0 =>
      (Except.error (WebhookError.businessError "webhook request failed after all attempts"), 0)
  | attempt, fuel + 1 =>
      match sendSingleRequest (outcomes attempt) with
      | Except.ok resp => (Except.ok resp, 1)
      | Except.error e =>
          if shouldRetryError e = false then
            (Except.error (WebhookError.businessError "webhook request failed after all attempts"), 1)
          else if maxRetries ≤ attempt then
            (Except.error (WebhookError.businessError "webhook request failed after all attempts"), 1)
          else
            let r := sendAttempts outcomes maxRetries (attempt + 1) fuel
            (r.1, r.2 + 1)

/-- SendMessage embeds `SendMessage`: the configured max retries falls
back to 3 when non-positive, then the loop runs attempts
`0 .. maxRetries`, stopping early on success or on a non-retryable
error.  Returns the result and the number of HTTP requests made. -/
def SendMessage (outcomes : Nat → HTTPOutcome) (configMaxRetries : Int) :
    Except WebhookError WebhookResponse × Nat :=
  let maxRetries : Nat := if configMaxRetries ≤ 0 then 3 else configMaxRetries.toNat
  sendAttempts outcomes maxRetries 0 (maxRetries + 1)

/-- respSuccessFalse is a concrete parsed webhook response whose success
flag is false. -/
def respSuccessFalse : WebhookResponse :=
  { success := false, externalID := "ext-1", errorMessage := "rejected" }

/-- outcomesSuccessFalse is an HTTP environment that always answers
status 200 with a body parsing to `respSuccessFalse`. -/
def outcomesSuccessFalse : Nat → HTTPOutcome :=
  fun _ => HTTPOutcome.response 200 (some respSuccessFalse)

/-- outcomes500 is an HTTP environment that always answers status 500. -/
def outcomes500 : Nat → HTTPOutcome :=
  fun _ => HTTPOutcome.response 500 none

/-! Message processing engine, from the production variant of
`internal/core/usecases/message_processing.go` (the one wired to the
webhook and cache services).  The webhook call result and the repository
`Update` outcome for each message are environment inputs; the cache write
error is discarded by the code and therefore not modelled. -/

/-- EngineError names the error a `processMessage` call can return. -/
inductive EngineError where
  | markFailedError
  | markSentError
  | updateError
  | webhookCallFailed (cause : WebhookError)
deriving DecidableEq, Repr

/-- processMessage embeds `processMessage`: on webhook failure it calls
`IncrementRetry`; if that errors it calls `MarkAsFailed` (returning a
mark error with no `Update` when even that fails); it then persists via
`Update` and reports the wrapped webhook error.  On webhook success it
calls `MarkAsSent` with the response external id, persists, and performs
a best-effort cache write.  Returns the message state after the call and
the error `processMessage` returns, `none` meaning success. -/
def processMessage (m : Message) (wres : Except WebhookError WebhookResponse)
    (updateOk : Bool) (now : Int) : Message × Option EngineError :=
  match wres with
  | Except.error werr =>
      let r1 := IncrementRetry m now
      match r1.2 with
      | some _ =>
          let r2 := MarkAsFailed r1.1 now
          match r2.2 with
          | some _ => (r2.1, some EngineError.markFailedError)
          | none =>
              if updateOk then (r2.1, some (EngineError.webhookCallFailed werr))
              else (r2.1, some EngineError.updateError)
      | none =>
          if updateOk then (r1.1, some (EngineError.webhookCallFailed werr))
          else (r1.1, some EngineError.updateError)
  | Except.ok resp =>
      let r1 := MarkAsSent m resp.externalID now
      match r1.2 with
      | some _ => (r1.1, some EngineError.markSentError)
      | none =>
          if updateOk then (r1.1, none)
          else (r1.1, some EngineError.updateError)

/-- ProcessingResult embeds the `ProcessingResult` of
`internal/core/ports/usecases`. -/
structure ProcessingResult where
  processedCount : Nat
  successCount : Nat
  failedCount : Nat
  errors : List EngineError
deriving DecidableEq, Repr

/-- clampBatchSize embeds the batch-size policy at the top of
`ProcessPendingMessages`: a non-positive input defaults to 2, anything
above 10 is cut to 10. -/
def clampBatchSize (batchSize : Int) : Int :=
  let b := if batchSize ≤ 0 then 2 else batchSize
  if b > 10 then 10 else b

/-- PendingEntry is one backlog row with its delivery environment: the
webhook call result for the message and whether the repository `Update`
for it succeeds. -/
structure PendingEntry where
  msg : Message
  webhookResult : Except WebhookError WebhookResponse
  updateOk : Bool

/-- processStep folds one fetched message into the running result,
exactly as the loop body of `ProcessPendingMessages` does: a
`processMessage` error increments the failure count and appends a
wrapped error, success increments the success count. -/
def processStep (now : Int) (r : ProcessingResult) (e : PendingEntry) :
    ProcessingResult :=
  match (processMessage e.msg e.webhookResult e.updateOk now).2 with
  | some err =>
      { r with
          failedCount := r.failedCount + 1
          errors := r.errors ++ [err] }
  | none => { r with successCount := r.successCount + 1 }

/-- ProcessPendingMessages embeds `ProcessPendingMessages` on a backlog
whose fetch succeeds: clamp the batch size, fetch up to that many
pending rows (`GetPendingMessages` with a limit, modelled by
`List.take`), set `ProcessedCount` to the number fetched, then process
each fetched message in order, never aborting the batch. -/
def ProcessPendingMessages (backlog : List PendingEntry) (batchSize : Int)
    (now : Int) : ProcessingResult :=
  let fetched := backlog.take (clampBatchSize batchSize).toNat
  let init : ProcessingResult :=
    { processedCount := fetched.length
      successCount := 0
      failedCount := 0
      errors := [] }
  fetched.foldl (processStep now) init

/-! Theorems. -/

/-- Helper: from a pending message with retry count 0, the first
`n ≤ 3` calls to `IncrementRetry` keep the status `PENDING` and bring the
retry count to exactly `n`. -/
lemma incrIter_pending_spec (m : Message) (h1 : m.status = Status.pending)
    (h2 : m.retryCount = 0) :
    ∀ n : Nat, n ≤ 3 →
      (incrIter m n).status = Status.pending ∧
        (incrIter m n).retryCount = (n : Int) := by
  intro n
  induction n with
  | zero => intro _; exact ⟨h1, by simpa [incrIter] using h2⟩
  | succ k ih =>
      intro hk
      have hk3 : k ≤ 3 := Nat.le_of_succ_le hk
      obtain ⟨hst, hrc⟩ := ih hk3
      have hlt : (k : Int) < MaxRetryAttempts := by
        have : k < 3 := Nat.lt_of_succ_le hk
        simp only [MaxRetryAttempts]
        exact_mod_cast this
      constructor
      · simp [incrIter, IncrementRetry, hst, hrc, not_le.mpr hlt]
      · simp [incrIter, IncrementRetry, hst, hrc, not_le.mpr hlt]

/-- Helper: every entity operation preserves the invariant that the
retry count is at most `MaxRetryAttempts`. -/
lemma applyOp_retry_le (m : Message) (op : EntityOp)
    (h : m.retryCount ≤ MaxRetryAttempts) :
    (applyOp m op).retryCount ≤ MaxRetryAttempts := by
  cases op with
  | markSent externalID now =>
      simp only [applyOp, MarkAsSent]
      split <;> simpa using h
  | markFailed now =>
      simp only [applyOp, MarkAsFailed]
      split <;> simpa using h
  | incrementRetry now =>
      simp only [applyOp, IncrementRetry]
      split
      · simpa using h
      · split
        · simpa using h
        · rename_i hnot hlt
          simp only [not_le] at hlt
          simp only [MaxRetryAttempts] at hlt ⊢
          omega

/-- Helper: arbitrary sequences of entity operations preserve the retry
count cap. -/
lemma applyOps_retry_le (ops : List EntityOp) :
    ∀ m : Message, m.retryCount ≤ MaxRetryAttempts →
      (applyOps m ops).retryCount ≤ MaxRetryAttempts := by
  induction ops with
  | nil => intro m h; simpa [applyOps] using h
  | cons op ops ih =>
      intro m h
      have := ih (applyOp m op) (applyOp_retry_le m op h)
      simpa [applyOps, List.foldl] using this

/-- C2: the claim admits the transition FAILED to SENT; the code refuses
it.  On a concrete FAILED message, `MarkAsSent` returns an
InvalidStatusTransition error and leaves the message unchanged, so
FAILED to SENT is not an admitted transition. -/
theorem c2_transition_counterexample :
    MarkAsSent failedMsgExample "ext-1" 5 =
      (failedMsgExample,
        some (EntityError.invalidStatusTransition Status.failed Status.sent)) := by
  decide

/-- C2 (amended): the status state machine admits exactly PENDING to
SENT (via `MarkAsSent`), PENDING to FAILED and the idempotent FAILED to
FAILED (via `MarkAsFailed`); SENT is terminal; `MarkAsSent` succeeds
only from PENDING — in particular FAILED to SENT is rejected. -/
theorem c2_transitions_amended (m : Message) (externalID : String) (now : Int) :
    ((MarkAsSent m externalID now).1.status =
        if m.status = Status.pending then Status.sent else m.status)
    ∧ ((MarkAsSent m externalID now).2 = none ↔ m.status = Status.pending)
    ∧ ((MarkAsFailed m now).1.status =
        if m.status = Status.sent then Status.sent else Status.failed)
    ∧ ((MarkAsFailed m now).2 = none ↔ ¬ m.status = Status.sent)
    ∧ ((IncrementRetry m now).1.status = m.status) := by
  cases hs : m.status <;>
    simp [MarkAsSent, MarkAsFailed, IncrementRetry, hs] <;>
    split <;> simp [hs]

/-- C3: calling `MarkAsSent` on a message whose status is SENT or FAILED
returns an InvalidStatusTransition error and leaves every field of the
message unchanged; it reports success exactly when the status is
PENDING. -/
theorem c3_markAsSent_guard (m : Message) (externalID : String) (now : Int)
    (h : m.status = Status.sent ∨ m.status = Status.failed) :
    MarkAsSent m externalID now =
      (m, some (EntityError.invalidStatusTransition m.status Status.sent))
    ∧ ∀ m2 : Message,
        ((MarkAsSent m2 externalID now).2 = none ↔ m2.status = Status.pending) := by
  constructor
  · rcases h with h | h <;> simp [MarkAsSent, h]
  · intro m2
    cases hs : m2.status <;> simp [MarkAsSent, hs]

/-- C3 witness: instantiated on a concrete SENT message. -/
theorem c3_markAsSent_guard_witness :
    (sentMsgExample.status = Status.sent ∨ sentMsgExample.status = Status.failed)
    ∧ MarkAsSent sentMsgExample "ext-9" 3 =
        (sentMsgExample,
          some (EntityError.invalidStatusTransition Status.sent Status.sent)) :=
  ⟨Or.inl rfl, (c3_markAsSent_guard sentMsgExample "ext-9" 3 (Or.inl rfl)).1⟩

/-- C7: from PENDING with retry count 0 and the configured maximum
`MaxRetryAttempts = 3`, the first 3 calls to `IncrementRetry` succeed and
increase the count by exactly one each, the fourth call returns
MaxRetriesExceeded and leaves the message unchanged, and no sequence of
entity operations ever pushes the retry count above the maximum. -/
theorem c7_increment_retry_cap (m : Message) (h1 : m.status = Status.pending)
    (h2 : m.retryCount = 0) :
    (∀ n : Nat, n < 3 →
        (IncrementRetry (incrIter m n) 0).2 = none ∧
          (incrIter m (n + 1)).retryCount = (n : Int) + 1)
    ∧ IncrementRetry (incrIter m 3) 0 =
        (incrIter m 3, some (EntityError.maxRetriesExceeded MaxRetryAttempts))
    ∧ ∀ ops : List EntityOp,
        (applyOps m ops).retryCount ≤ MaxRetryAttempts := by
  refine ⟨?_, ?_, ?_⟩
  · intro n hn
    obtain ⟨hst, hrc⟩ := incrIter_pending_spec m h1 h2 n (Nat.le_of_lt hn)
    have hlt : (n : Int) < MaxRetryAttempts := by
      simp only [MaxRetryAttempts]; exact_mod_cast hn
    constructor
    · simp [IncrementRetry, hst, hrc, not_le.mpr hlt]
    · simp [incrIter, IncrementRetry, hst, hrc, not_le.mpr hlt]
  · obtain ⟨hst, hrc⟩ := incrIter_pending_spec m h1 h2 3 (le_refl 3)
    have : (incrIter m 3).retryCount = MaxRetryAttempts := by
      rw [hrc]; simp [MaxRetryAttempts]
    simp [IncrementRetry, hst, this, le_refl]
  · intro ops
    exact applyOps_retry_le ops m (by rw [h2]; simp [MaxRetryAttempts])

/-- C7 witness: instantiated on a concrete fresh pending message. -/
theorem c7_increment_retry_cap_witness :
    pendingMsgExample.status = Status.pending
    ∧ pendingMsgExample.retryCount = 0
    ∧ (IncrementRetry (incrIter pendingMsgExample 3) 0).2 =
        some (EntityError.maxRetriesExceeded MaxRetryAttempts) := by
  refine ⟨rfl, rfl, ?_⟩
  have h := (c7_increment_retry_cap pendingMsgExample rfl rfl).2.1
  rw [h]

/-- C10: `MarkAsFailed` errors exactly when the status is SENT; on a
message already FAILED it succeeds, keeps the status FAILED, and changes
only `updatedAt`. -/
theorem c10_markAsFailed_idempotent (m m2 : Message) (now : Int)
    (h : m.status = Status.failed) :
    MarkAsFailed m now = ({ m with updatedAt := now }, none)
    ∧ ((MarkAsFailed m2 now).2.isSome ↔ m2.status = Status.sent) := by
  constructor
  · cases m with
    | mk id pn c st eid rc ca ua sa =>
        simp only at h
        subst h
        simp [MarkAsFailed]
  · cases hs : m2.status <;> simp [MarkAsFailed, hs]

/-- C10 witness: instantiated on a concrete FAILED message. -/
theorem c10_markAsFailed_idempotent_witness :
    failedMsgExample.status = Status.failed
    ∧ MarkAsFailed failedMsgExample 9 =
        ({ failedMsgExample with updatedAt := 9 }, none) :=
  ⟨rfl, (c10_markAsFailed_idempotent failedMsgExample failedMsgExample 9 rfl).1⟩

/-- C1: the claim says a parsed 2xx response with success equal to false
is treated as a failure and the message is not marked SENT.  On a
concrete run the client returns that response as a success after a
single request, and the engine then marks the pending message SENT. -/
theorem c1_success_false_counterexample :
    SendMessage outcomesSuccessFalse 3 = (Except.ok respSuccessFalse, 1)
    ∧ respSuccessFalse.success = false
    ∧ (processMessage pendingMsgExample (Except.ok respSuccessFalse) true 7).1.status
        = Status.sent :=
  ⟨rfl, rfl, rfl⟩

/-- C1 (amended): a webhook HTTP response with a 2xx status and a body
that parses as a valid response object is returned by `SendMessage` as a
success after that single request, with no inspection of the success
flag (success equal to false included); the processing engine then marks
the message SENT with the external id of the response. -/
theorem c1_success_false_amended (outcomes : Nat → HTTPOutcome)
    (resp : WebhookResponse) (st : Nat) (configMaxRetries : Int) (m : Message)
    (updateOk : Bool) (now : Int)
    (hst : 200 ≤ st ∧ st < 300)
    (hout : outcomes 0 = HTTPOutcome.response st (some resp))
    (hm : m.status = Status.pending) :
    SendMessage outcomes configMaxRetries = (Except.ok resp, 1)
    ∧ (processMessage m (Except.ok resp) updateOk now).1.status = Status.sent
    ∧ (processMessage m (Except.ok resp) updateOk now).1.externalID
        = some resp.externalID := by
  have hcond : ¬(st < 200 ∨ st ≥ 300) := by omega
  refine ⟨?_, ?_, ?_⟩
  · simp [SendMessage, sendAttempts, sendSingleRequest, hout, hcond]
  · cases updateOk <;> simp [processMessage, MarkAsSent, hm]
  · cases updateOk <;> simp [processMessage, MarkAsSent, hm]

/-- C1 witness: the amended statement instantiated on the concrete
environment of the counterexample. -/
theorem c1_success_false_amended_witness :
    (200 ≤ 200 ∧ 200 < 300)
    ∧ outcomesSuccessFalse 0 = HTTPOutcome.response 200 (some respSuccessFalse)
    ∧ pendingMsgExample.status = Status.pending
    ∧ SendMessage outcomesSuccessFalse 3 = (Except.ok respSuccessFalse, 1)
    ∧ (processMessage pendingMsgExample (Except.ok respSuccessFalse) true 7).1.externalID
        = some respSuccessFalse.externalID := by
  refine ⟨by omega, rfl, rfl, ?_, ?_⟩
  · exact (c1_success_false_amended outcomesSuccessFalse respSuccessFalse 200 3
      pendingMsgExample true 7 (by omega) rfl rfl).1
  · exact (c1_success_false_amended outcomesSuccessFalse respSuccessFalse 200 3
      pendingMsgExample true 7 (by omega) rfl rfl).2.2

/-- C4: the claim says the engine reaches retry count 3 by catching
MaxRetriesExceeded and marks the message FAILED in that pass.  On a
concrete pending message with retry count 2 whose webhook delivery fails
with HTTP 500 on all four attempts, `IncrementRetry` simply succeeds
(2 is below the cap), so the message stays PENDING with retry count 3
and is not marked FAILED. -/
theorem c4_retry_counterexample :
    (SendMessage outcomes500 3).2 = 4
    ∧ (SendMessage outcomes500 3).1 =
        Except.error (WebhookError.businessError "webhook request failed after all attempts")
    ∧ (processMessage msgRetry2 (SendMessage outcomes500 3).1 true 11).1.status
        = Status.pending
    ∧ (processMessage msgRetry2 (SendMessage outcomes500 3).1 true 11).1.retryCount = 3
    ∧ (IncrementRetry msgRetry2 11).2 = none :=
  ⟨rfl, rfl, rfl, rfl, rfl⟩

/-- C4 (amended): when delivery of a pending message with retry count 2
and maximum `MaxRetryAttempts = 3` fails, the engine increments the
retry count to 3 through a plain successful `IncrementRetry` call —
MaxRetriesExceeded is not raised — records a failure, and leaves the
message PENDING, not FAILED, in that pass; only when a later pass fails
again does `IncrementRetry` raise MaxRetriesExceeded and the engine mark
the message FAILED. -/
theorem c4_retry_amended (m : Message) (e : WebhookError)
    (updateOk1 updateOk2 : Bool) (now later : Int)
    (h1 : m.status = Status.pending) (h2 : m.retryCount = 2) :
    (processMessage m (Except.error e) updateOk1 now).1.status = Status.pending
    ∧ (processMessage m (Except.error e) updateOk1 now).1.retryCount = 3
    ∧ (processMessage m (Except.error e) updateOk1 now).2.isSome = true
    ∧ (IncrementRetry m now).2 = none
    ∧ (IncrementRetry (processMessage m (Except.error e) updateOk1 now).1 later).2
        = some (EntityError.maxRetriesExceeded MaxRetryAttempts)
    ∧ (processMessage (processMessage m (Except.error e) updateOk1 now).1
        (Except.error e) updateOk2 later).1.status = Status.failed := by
  cases updateOk1 <;> cases updateOk2 <;>
    simp [processMessage, IncrementRetry, MarkAsFailed, h1, h2, MaxRetryAttempts]

/-- C4 witness: the amended statement instantiated on the concrete
message with retry count 2 and a concrete webhook error. -/
theorem c4_retry_amended_witness :
    msgRetry2.status = Status.pending
    ∧ msgRetry2.retryCount = 2
    ∧ (processMessage msgRetry2
        (Except.error (WebhookError.businessError "HTTP request failed")) true 11).1.status
        = Status.pending
    ∧ (processMessage (processMessage msgRetry2
        (Except.error (WebhookError.businessError "HTTP request failed")) true 11).1
        (Except.error (WebhookError.businessError "HTTP request failed")) true 12).1.status
        = Status.failed := by
  refine ⟨rfl, rfl, ?_, ?_⟩
  · exact (c4_retry_amended msgRetry2 (WebhookError.businessError "HTTP request failed")
      true true 11 12 rfl rfl).1
  · exact (c4_retry_amended msgRetry2 (WebhookError.businessError "HTTP request failed")
      true true 11 12 rfl rfl).2.2.2.2.2

/-- Helper: the batch loop never touches `processedCount`; it stays the
number of fetched messages set before the loop. -/
lemma foldl_processedCount (now : Int) (l : List PendingEntry) :
    ∀ r : ProcessingResult,
      (l.foldl (processStep now) r).processedCount = r.processedCount := by
  induction l with
  | nil => intro r; rfl
  | cons e l ih =>
      intro r
      rw [List.foldl_cons, ih]
      cases hm : (processMessage e.msg e.webhookResult e.updateOk now).2 <;>
        simp [processStep, hm]

/-- Helper: each loop step adds exactly one to the sum of the success and
failure counters. -/
lemma foldl_success_failed (now : Int) (l : List PendingEntry) :
    ∀ r : ProcessingResult,
      (l.foldl (processStep now) r).successCount +
          (l.foldl (processStep now) r).failedCount =
        r.successCount + r.failedCount + l.length := by
  induction l with
  | nil => intro r; simp
  | cons e l ih =>
      intro r
      rw [List.foldl_cons, ih]
      cases hm : (processMessage e.msg e.webhookResult e.updateOk now).2 <;>
        simp [processStep, hm] <;> omega

/-- Helper: the loop appends exactly one error per failure, so the error
list length tracks the failure counter. -/
lemma foldl_errors_failed (now : Int) (l : List PendingEntry) :
    ∀ r : ProcessingResult, r.errors.length = r.failedCount →
      (l.foldl (processStep now) r).errors.length =
        (l.foldl (processStep now) r).failedCount := by
  induction l with
  | nil => intro r h; simpa using h
  | cons e l ih =>
      intro r h
      rw [List.foldl_cons]
      apply ih
      cases hm : (processMessage e.msg e.webhookResult e.updateOk now).2 <;>
        simp [processStep, hm, h]

/-- Helper: the clamped batch size written as one conditional. -/
lemma clampBatchSize_cases (b : Int) :
    clampBatchSize b = if b ≤ 0 then 2 else if 10 < b then 10 else b := by
  simp only [clampBatchSize]
  split <;> split <;> omega

/-- C6: the effective batch size always lies in the interval 1..10, a
non-positive input defaults to 2, an input above 10 is cut to 10, and one
pass processes exactly the clamped batch size bounded by the number of
available pending rows — so never more than the effective batch size. -/
theorem c6_batch_clamp (backlog : List PendingEntry) (batchSize : Int) (now : Int) :
    1 ≤ clampBatchSize batchSize
    ∧ clampBatchSize batchSize ≤ 10
    ∧ (batchSize ≤ 0 → clampBatchSize batchSize = 2)
    ∧ (10 < batchSize → clampBatchSize batchSize = 10)
    ∧ (ProcessPendingMessages backlog batchSize now).processedCount =
        min (clampBatchSize batchSize).toNat backlog.length := by
  have hc := clampBatchSize_cases batchSize
  refine ⟨?_, ?_, ?_, ?_, ?_⟩
  · rw [hc]; split <;> [omega; skip]; split <;> omega
  · rw [hc]; split <;> [omega; skip]; split <;> omega
  · intro h; rw [hc]; simp [h]
  · intro h
    rw [hc]
    have : ¬ batchSize ≤ 0 := by omega
    simp [this, h]
  · simp only [ProcessPendingMessages]
    rw [foldl_processedCount]
    simp [List.length_take]

/-- entryExample is one concrete backlog row. -/
def entryExample : PendingEntry :=
  { msg := pendingMsgExample
    webhookResult := Except.ok respSuccessFalse
    updateOk := true }

/-- backlogFive is a concrete backlog of five pending rows. -/
def backlogFive : List PendingEntry := List.replicate 5 entryExample

/-- C6 witness: with five pending rows, batch size 0 processes exactly 2
and batch size 99 processes exactly 5. -/
theorem c6_batch_clamp_witness :
    clampBatchSize 0 = 2
    ∧ clampBatchSize 99 = 10
    ∧ (ProcessPendingMessages backlogFive 0 0).processedCount = 2
    ∧ (ProcessPendingMessages backlogFive 99 0).processedCount = 5 := by
  refine ⟨(c6_batch_clamp backlogFive 0 0).2.2.1 (by omega),
    (c6_batch_clamp backlogFive 99 0).2.2.2.1 (by omega), ?_, ?_⟩
  · rw [(c6_batch_clamp backlogFive 0 0).2.2.2.2]; rfl
  · rw [(c6_batch_clamp backlogFive 99 0).2.2.2.2]; rfl

/-- C8: the backoff delay before retry attempt n is the exponential
`base * 2 ^ (n - 1)` capped at the configured maximum, where the base
falls back to one second and the cap to five seconds when the configured
values are non-positive. -/
theorem c8_backoff_delay (config : WebhookConfig) (n : Nat) (h : 1 ≤ n) :
    calculateBackoffDelay config n =
      min ((if config.retryBackoffBase ≤ 0 then oneSecondNs
              else config.retryBackoffBase) * 2 ^ (n - 1))
          (if config.retryBackoffMax ≤ 0 then 5 * oneSecondNs
              else config.retryBackoffMax) := by
  simp only [calculateBackoffDelay]
  set a := (if config.retryBackoffBase ≤ 0 then oneSecondNs
      else config.retryBackoffBase) * 2 ^ (n - 1) with ha
  set b := (if config.retryBackoffMax ≤ 0 then 5 * oneSecondNs
      else config.retryBackoffMax) with hb
  rcases le_or_lt a b with hle | hlt
  · rw [if_neg (not_lt.mpr hle), min_eq_left hle]
  · rw [if_pos hlt, min_eq_right hlt.le]

/-- C8 witness: with everything left at the defaults, the wait before
the third retry attempt is four seconds, the uncapped exponential. -/
theorem c8_backoff_delay_witness :
    (1 : Nat) ≤ 3
    ∧ calculateBackoffDelay
        { maxRetries := 3, retryBackoffBase := 0, retryBackoffMax := 0 } 3 =
      min (oneSecondNs * 2 ^ 2) (5 * oneSecondNs) :=
  ⟨by omega,
    c8_backoff_delay { maxRetries := 3, retryBackoffBase := 0, retryBackoffMax := 0 }
      3 (by omega)⟩

/-- C9: for a pass whose fetch succeeds, the processed count equals the
number of fetched messages, the success and failure counters partition
it, and the error list holds exactly one entry per failed message; every
fetched message is processed, so one failure never stops the batch. -/
theorem c9_result_counts (backlog : List PendingEntry) (batchSize : Int) (now : Int) :
    (ProcessPendingMessages backlog batchSize now).processedCount =
      (backlog.take (clampBatchSize batchSize).toNat).length
    ∧ (ProcessPendingMessages backlog batchSize now).successCount +
          (ProcessPendingMessages backlog batchSize now).failedCount =
        (ProcessPendingMessages backlog batchSize now).processedCount
    ∧ (ProcessPendingMessages backlog batchSize now).errors.length =
        (ProcessPendingMessages backlog batchSize now).failedCount := by
  refine ⟨?_, ?_, ?_⟩
  · simp only [ProcessPendingMessages]
    rw [foldl_processedCount]
  · simp only [ProcessPendingMessages]
    rw [foldl_processedCount, foldl_success_failed]
    simp
  · simp only [ProcessPendingMessages]
    exact foldl_errors_failed now _ _ rfl

/-- Helper: a character no larger than code point 127 occupies one
UTF-8 byte. -/
lemma utf8Size_one (c : Char) (h : c.val ≤ 127) : c.utf8Size = 1 := by
  unfold Char.utf8Size
  rw [if_pos]
  exact h

/-- Helper: a decimal digit has code point between 48 and 57. -/
lemma isDigit_val {c : Char} (h : c.isDigit = true) : 48 ≤ c.val ∧ c.val ≤ 57 := by
  simp [Char.isDigit] at h
  exact h

/-- Helper: a decimal digit occupies one UTF-8 byte. -/
lemma digit_utf8Size {c : Char} (h : c.isDigit = true) : c.utf8Size = 1 := by
  apply utf8Size_one
  exact UInt32.le_trans (isDigit_val h).2 (by decide)

/-- Helper: the plus sign occupies one UTF-8 byte. -/
lemma plus_utf8Size : ('+' : Char).utf8Size = 1 := by decide

/-- Helper: a character at least the digit one is not the plus sign. -/
lemma ne_plus_of_ge_one {c : Char} (h : '1' ≤ c) : ¬ (c = '+') := by
  intro hc
  subst hc
  exact absurd h (by decide)

/-- Helper: a character between the digits one and nine is a digit. -/
lemma isDigit_of_range {c : Char} (h1 : '1' ≤ c) (h9 : c ≤ '9') : c.isDigit = true := by
  rw [Char.le_def] at h1 h9
  simp [Char.isDigit]
  exact ⟨UInt32.le_trans (by decide : (48 : UInt32) ≤ 49) h1, h9⟩

/-- Helper: the byte length of a cons. -/
lemma utf8Len_cons (c : Char) (l : List Char) :
    utf8Len (c :: l) = c.utf8Size + utf8Len l := by
  simp [utf8Len]

/-- Helper: a list of digits has as many bytes as characters. -/
lemma utf8Len_digits (l : List Char) (h : l.all Char.isDigit = true) :
    utf8Len l = l.length := by
  induction l with
  | nil => rfl
  | cons c l ih =>
      simp only [List.all_cons, Bool.and_eq_true] at h
      rw [utf8Len_cons, digit_utf8Size h.1, ih h.2]
      simp [List.length_cons]
      omega

/-- phoneNineDigits is the raw string +123456789: a plus sign followed
by nine digits. -/
def phoneNineDigits : List Char := ['+', '1', '2', '3', '4', '5', '6', '7', '8', '9']

/-- C5: the claim rejects every raw string with fewer than 10 digits
after the optional plus; the code accepts +123456789, which has only 9
digits, because its length check counts the plus sign itself. -/
theorem c5_phone_counterexample :
    PhoneNumberValidate phoneNineDigits = true
    ∧ (phoneNineDigits.filter Char.isDigit).length = 9 := by
  decide

/-- C5 (amended): `NewPhoneNumber` accepts a raw string iff, after
trimming whitespace and stripping spaces, hyphens and parentheses, what
remains is an optional leading plus followed by digits whose first digit
is between 1 and 9, and the total character count including the optional
plus sign lies between 10 and 15 — so 9 to 14 digits with a plus, and 10
to 15 digits without one. -/
theorem c5_phone_amended (raw : List Char) :
    PhoneNumberValidate raw = true ↔
      ∃ (hasPlus : Bool) (c : Char) (rest : List Char),
        removeSeparators (trimSpace raw) = cond hasPlus ['+'] [] ++ c :: rest
        ∧ '1' ≤ c ∧ c ≤ '9'
        ∧ rest.all Char.isDigit = true
        ∧ minPhoneLength ≤ cond hasPlus 2 1 + rest.length
        ∧ cond hasPlus 2 1 + rest.length ≤ maxPhoneLength := by
  constructor
  · intro h
    simp only [PhoneNumberValidate] at h
    by_cases hph : trimSpace raw = []
    · rw [if_pos hph] at h
      exact absurd h (by simp)
    · rw [if_neg hph] at h
      by_cases hlen : utf8Len (removeSeparators (trimSpace raw)) < minPhoneLength ∨
          utf8Len (removeSeparators (trimSpace raw)) > maxPhoneLength
      · rw [if_pos hlen] at h
        exact absurd h (by simp)
      · rw [if_neg hlen] at h
        push_neg at hlen
        cases hcl : removeSeparators (trimSpace raw) with
        | nil =>
            rw [hcl] at h
            exact absurd h (by simp [phoneRegexMatch])
        | cons c0 rest0 =>
            rw [hcl] at h hlen
            simp only [phoneRegexMatch] at h
            by_cases hplus : c0 = '+'
            · rw [if_pos hplus] at h
              cases hr : rest0 with
              | nil =>
                  rw [hr] at h
                  exact absurd h (by simp [matchDigitsPart])
              | cons c1 ds =>
                  rw [hr] at h
                  simp only [matchDigitsPart, Bool.and_eq_true, decide_eq_true_eq] at h
                  obtain ⟨⟨⟨⟨h1, h9⟩, hall⟩, hge⟩, hle⟩ := h
                  have hsz : utf8Len (c0 :: rest0) = 2 + ds.length := by
                    rw [hplus, hr, utf8Len_cons, utf8Len_cons, plus_utf8Size,
                      digit_utf8Size (isDigit_of_range h1 h9), utf8Len_digits ds hall]
                    omega
                  rw [hsz] at hlen
                  refine ⟨true, c1, ds, ?_, h1, h9, hall, ?_, ?_⟩
                  · rw [hplus]
                    simp
                  · simpa using hlen.1
                  · simpa using hlen.2
            · rw [if_neg hplus] at h
              simp only [matchDigitsPart, Bool.and_eq_true, decide_eq_true_eq] at h
              obtain ⟨⟨⟨⟨h1, h9⟩, hall⟩, hge⟩, hle⟩ := h
              have hsz : utf8Len (c0 :: rest0) = 1 + rest0.length := by
                rw [utf8Len_cons, digit_utf8Size (isDigit_of_range h1 h9),
                  utf8Len_digits rest0 hall]
              rw [hsz] at hlen
              refine ⟨false, c0, rest0, by simp, h1, h9, hall, ?_, ?_⟩
              · simpa using hlen.1
              · simpa using hlen.2
  · rintro ⟨hasPlus, c, rest, hclean, h1, h9, hall, hmin, hmax⟩
    have hcsz : c.utf8Size = 1 := digit_utf8Size (isDigit_of_range h1 h9)
    have hrsz : utf8Len rest = rest.length := utf8Len_digits rest hall
    have hphone : trimSpace raw ≠ [] := by
      intro hnil
      rw [hnil] at hclean
      cases hasPlus <;> simp [removeSeparators] at hclean
    simp only [PhoneNumberValidate]
    rw [if_neg hphone]
    cases hasPlus with
    | true =>
        simp only [cond] at hclean hmin hmax
        have hsz : utf8Len (removeSeparators (trimSpace raw)) = 2 + rest.length := by
          rw [hclean]
          simp only [List.singleton_append]
          rw [utf8Len_cons, utf8Len_cons, plus_utf8Size, hcsz, hrsz]
          omega
        rw [if_neg (by rw [hsz]; simp only [minPhoneLength, maxPhoneLength] at hmin hmax ⊢; omega)]
        rw [hclean]
        have hge : 1 ≤ rest.length := by
          simp only [minPhoneLength] at hmin; omega
        have hle14 : rest.length ≤ 14 := by
          simp only [maxPhoneLength] at hmax; omega
        simp [phoneRegexMatch, matchDigitsPart, h1, h9, hall, hge, hle14]
    | false =>
        simp only [cond] at hclean hmin hmax
        have hsz : utf8Len (removeSeparators (trimSpace raw)) = 1 + rest.length := by
          rw [hclean]
          simp only [List.nil_append]
          rw [utf8Len_cons, hcsz, hrsz]
        rw [if_neg (by rw [hsz]; simp only [minPhoneLength, maxPhoneLength] at hmin hmax ⊢; omega)]
        rw [hclean]
        have hge : 1 ≤ rest.length := by
          simp only [minPhoneLength] at hmin; omega
        have hle14 : rest.length ≤ 14 := by
          simp only [maxPhoneLength] at hmax; omega
        simp [phoneRegexMatch, matchDigitsPart, ne_plus_of_ge_one h1, h1, h9, hall, hge, hle14]

end MessageDispatcher
